import Mathlib

/-!
Verification development for the gluten fragment: the `spark_to_date`
string-to-date validation routine (`cpp-ch/local-engine/Functions/SparkFunctionToDate.cpp`)
and the shuffle read pipeline declared in `cpp/core/shuffle/ShuffleReader.h`.

Bytes are modelled as natural numbers (0..255); a buffer is a `List Nat`
holding the bytes from the current read position onward.
-/

namespace Gluten

/-! ### SparkFunctionConvertToDate.checkDateFormat -/

/-- Predicate `isNumericASCII`: the byte is an ASCII digit, `'0' = 48 .. '9' = 57`. -/
def isNumericASCII (c : Nat) : Bool :=
  decide (48 ≤ c) && decide (c ≤ 57)

/-- The `checkNumbericASCII` lambda of `checkDateFormat`: every byte at offset
`start ≤ i < start + length` from the buffer position is an ASCII digit. -/
def checkNumbericASCII (buf : List Nat) (start length : Nat) : Bool :=
  (List.range length).all (fun i => isNumericASCII (buf.getD (start + i) 0))

/-- The `checkDelimiter` lambda of `checkDateFormat`: the byte at offset `pos`
is `'-' = 45`. -/
def checkDelimiter (buf : List Nat) (pos : Nat) : Bool :=
  buf.getD pos 0 == 45

/-- The digit value `*(buf.position() + i) - '0'` read at offset `i`. -/
def digitAt (buf : List Nat) (i : Nat) : Nat :=
  buf.getD i 0 - 48

/-- The `month` local of `checkDateFormat`: two digits at offsets 5 and 6. -/
def monthOf (buf : List Nat) : Nat :=
  digitAt buf 5 * 10 + digitAt buf 6

/-- The `day` local of `checkDateFormat`: two digits at offsets 8 and 9. -/
def dayOf (buf : List Nat) : Nat :=
  digitAt buf 8 * 10 + digitAt buf 9

/-- The `year` local of `checkDateFormat`: four digits at offsets 0..3. -/
def yearOf (buf : List Nat) : Nat :=
  digitAt buf 0 * 1000 + digitAt buf 1 * 100 + digitAt buf 2 * 10 + digitAt buf 3

/-- Transliteration of `SparkFunctionConvertToDate::checkDateFormat` from
`SparkFunctionToDate.cpp` lines 46-94.  The buffer is the byte sequence from
the current read position; the function inspects offsets 0..9 only. -/
def checkDateFormat (buf : List Nat) : Bool :=
  if ¬ checkNumbericASCII buf 0 4 ∨ ¬ checkDelimiter buf 4 ∨ ¬ checkNumbericASCII buf 5 2 ∨
     ¬ checkDelimiter buf 7 ∨ ¬ checkNumbericASCII buf 8 2 then
    false
  else if monthOf buf ≤ 0 ∨ monthOf buf > 12 then
    false
  else if dayOf buf ≤ 0 ∨ dayOf buf > 31 then
    false
  else if dayOf buf = 31 ∧ (monthOf buf = 2 ∨ monthOf buf = 4 ∨ monthOf buf = 6 ∨
                            monthOf buf = 9 ∨ monthOf buf = 11) then
    false
  else if dayOf buf = 30 ∧ monthOf buf = 2 then
    false
  else if dayOf buf = 29 ∧ monthOf buf = 2 ∧ yearOf buf % 4 ≠ 0 then
    false
  else
    true

/-- The byte is an ASCII digit, as a proposition. -/
def isDigitByte (c : Nat) : Prop :=
  48 ≤ c ∧ c ≤ 57

instance (c : Nat) : Decidable (isDigitByte c) := by
  unfold isDigitByte; infer_instance

/-- The shape the claim describes for a 10-character prefix: `DDDD-DD-DD`
(four ASCII digits, `'-'`, two digits, `'-'`, two digits), month in 1..12,
day in 1..31, excluding day 31 for months 2, 4, 6, 9, 11, day 30 for
month 2, and day 29 for month 2 whenever the year is not divisible by 4. -/
def specDateShape (buf : List Nat) : Prop :=
  isDigitByte (buf.getD 0 0) ∧ isDigitByte (buf.getD 1 0) ∧
  isDigitByte (buf.getD 2 0) ∧ isDigitByte (buf.getD 3 0) ∧
  buf.getD 4 0 = 45 ∧
  isDigitByte (buf.getD 5 0) ∧ isDigitByte (buf.getD 6 0) ∧
  buf.getD 7 0 = 45 ∧
  isDigitByte (buf.getD 8 0) ∧ isDigitByte (buf.getD 9 0) ∧
  1 ≤ monthOf buf ∧ monthOf buf ≤ 12 ∧
  1 ≤ dayOf buf ∧ dayOf buf ≤ 31 ∧
  ¬ (dayOf buf = 31 ∧ (monthOf buf = 2 ∨ monthOf buf = 4 ∨ monthOf buf = 6 ∨
                       monthOf buf = 9 ∨ monthOf buf = 11)) ∧
  ¬ (dayOf buf = 30 ∧ monthOf buf = 2) ∧
  (dayOf buf = 29 ∧ monthOf buf = 2 → yearOf buf % 4 = 0)

instance (buf : List Nat) : Decidable (specDateShape buf) := by
  unfold specDateShape; infer_instance

theorem checkNumbericASCII_iff (buf : List Nat) (s l : Nat) :
    checkNumbericASCII buf s l = true ↔ ∀ i < l, isDigitByte (buf.getD (s + i) 0) := by
  simp [checkNumbericASCII, isNumericASCII, isDigitByte, List.all_eq_true]

theorem structOK_iff (buf : List Nat) :
    (checkNumbericASCII buf 0 4 = true ∧ checkDelimiter buf 4 = true ∧
     checkNumbericASCII buf 5 2 = true ∧ checkDelimiter buf 7 = true ∧
     checkNumbericASCII buf 8 2 = true) ↔
    (isDigitByte (buf.getD 0 0) ∧ isDigitByte (buf.getD 1 0) ∧ isDigitByte (buf.getD 2 0) ∧
     isDigitByte (buf.getD 3 0) ∧ buf.getD 4 0 = 45 ∧ isDigitByte (buf.getD 5 0) ∧
     isDigitByte (buf.getD 6 0) ∧ buf.getD 7 0 = 45 ∧ isDigitByte (buf.getD 8 0) ∧
     isDigitByte (buf.getD 9 0)) := by
  simp only [checkNumbericASCII, checkDelimiter, isNumericASCII, isDigitByte,
    show List.range 4 = [0, 1, 2, 3] from rfl, show List.range 2 = [0, 1] from rfl,
    List.all_cons, List.all_nil, Bool.and_eq_true, Bool.and_true, decide_eq_true_iff,
    beq_iff_eq]
  norm_num
  tauto

/-- C8: `checkDateFormat` accepts a 10-character prefix exactly when it has
the shape `DDDD-DD-DD` (four ASCII digits, `'-'`, two digits, `'-'`, two
digits) with month in 1..12 and day in 1..31, excluding day 31 for months
2, 4, 6, 9 and 11, day 30 for month 2, and day 29 for month 2 whenever the
year is not divisible by 4 — so February 29 of any year divisible by 4,
century years such as 1900 included, is accepted. -/
theorem checkDateFormat_characterization (buf : List Nat) (h : 10 ≤ buf.length) :
    checkDateFormat buf = true ↔ specDateShape buf := by
  have hs := structOK_iff buf
  unfold checkDateFormat specDateShape
  split_ifs with h1 h2 h3 h4 h5 h6
  · simp only [false_iff]
    rintro ⟨a0, a1, a2, a3, a4, a5, a6, a7, a8, a9, -⟩
    have := hs.mpr ⟨a0, a1, a2, a3, a4, a5, a6, a7, a8, a9⟩
    tauto
  · simp only [false_iff]
    rintro ⟨-, -, -, -, -, -, -, -, -, -, hm1, hm2, -⟩
    omega
  · simp only [false_iff]
    rintro ⟨-, -, -, -, -, -, -, -, -, -, -, -, hd1, hd2, -⟩
    omega
  · simp only [false_iff]
    rintro ⟨-, -, -, -, -, -, -, -, -, -, -, -, -, -, hn4, -⟩
    exact hn4 h4
  · simp only [false_iff]
    rintro ⟨-, -, -, -, -, -, -, -, -, -, -, -, -, -, -, hn5, -⟩
    exact hn5 h5
  · simp only [false_iff]
    rintro ⟨-, -, -, -, -, -, -, -, -, -, -, -, -, -, -, -, hn6⟩
    rcases h6 with ⟨hd, hm, hy⟩
    exact hy (hn6 ⟨hd, hm⟩)
  · simp only [true_iff]
    simp only [not_or, not_not] at h1
    obtain ⟨hA, hB, hC, hD, hE⟩ := h1
    obtain ⟨a0, a1, a2, a3, a4, a5, a6, a7, a8, a9⟩ := hs.mp ⟨hA, hB, hC, hD, hE⟩
    refine ⟨a0, a1, a2, a3, a4, a5, a6, a7, a8, a9, by omega, by omega, by omega, by omega,
      h4, h5, ?_⟩
    intro hdm
    by_contra hy
    exact h6 ⟨hdm.1, hdm.2, hy⟩

/-! ### SparkFunctionConvertToDate.executeImpl -/

/-- One row's outcome: the value stored in the result container and the null
flag stored in the null map. -/
structure RowResult where
  value : Int
  isNull : Bool
deriving DecidableEq, Repr

/-- The per-row body of `executeImpl` (lines 118-151): rows shorter than 10
bytes, rows whose remainder after skipping leading spaces (`' ' = 32`) is
shorter than 10 bytes, and rows whose prefix fails `checkDateFormat` store
value 0 with the null flag set; otherwise the external
`tryParseImpl<DataTypeDate32>` (library code outside this repository,
abstracted as `tryParse`, returning the value it writes into the result slot
and whether it succeeded) runs and the null flag is its negated success. -/
def convertRow (tryParse : List Nat → Int × Bool) (s : List Nat) : RowResult :=
  if s.length < 10 then ⟨0, true⟩
  else if (s.dropWhile (fun b => b == 32)).length < 10 then ⟨0, true⟩
  else if ¬ checkDateFormat (s.dropWhile (fun b => b == 32)) then ⟨0, true⟩
  else
    ⟨(tryParse (s.dropWhile (fun b => b == 32))).1,
     !(tryParse (s.dropWhile (fun b => b == 32))).2⟩

/-- The two error codes `executeImpl` can throw before building any column. -/
inductive ExecError where
  | numberOfArgumentsDoesntMatch
  | illegalTypeOfArgument
deriving DecidableEq, Repr

/-- The `ColumnNullable` result: the data column and the null map, index by
index. -/
structure NullableColumn where
  values : List Int
  nullMap : List Bool
deriving DecidableEq, Repr

/-- The facts about `result_type` that `executeImpl` inspects: whether it is
nullable and whether the type under the nullability wrapper is `Date32`. -/
structure DataTypeModel where
  isNullable : Bool
  innerIsDate32 : Bool
deriving DecidableEq, Repr

/-- Transliteration of `SparkFunctionConvertToDate::executeImpl`
(lines 96-153).  An argument
column is a list of byte strings; the checks on the argument count and the
result type throw (model: `Except.error`) before any result column is
created; otherwise every row is converted by `convertRow` and the value and
null columns are assembled into a `ColumnNullable`. -/
def executeImpl (tryParse : List Nat → Int × Bool)
    (arguments : List (List (List Nat))) (result_type : DataTypeModel) :
    Except ExecError NullableColumn :=
  if arguments.length ≠ 1 then Except.error ExecError.numberOfArgumentsDoesntMatch
  else if ¬ result_type.isNullable then Except.error ExecError.illegalTypeOfArgument
  else if ¬ result_type.innerIsDate32 then Except.error ExecError.illegalTypeOfArgument
  else
    let results := (arguments.headD []).map (convertRow tryParse)
    Except.ok ⟨results.map RowResult.value, results.map RowResult.isNull⟩

theorem convertRow_null (tryParse : List Nat → Int × Bool) (s : List Nat)
    (hbad : s.length < 10 ∨ (s.dropWhile (fun b => b == 32)).length < 10 ∨
            checkDateFormat (s.dropWhile (fun b => b == 32)) = false) :
    convertRow tryParse s = ⟨0, true⟩ := by
  unfold convertRow
  split_ifs with h1 h2 h3
  · rfl
  · rfl
  · exfalso
    rcases hbad with h | h | h
    · exact h1 h
    · exact h2 h
    · rw [h] at h3
      exact Bool.false_ne_true h3
  · rfl

theorem convertRow_cases (tryParse : List Nat → Int × Bool) (s : List Nat) :
    (convertRow tryParse s).isNull = true ∨
    ((convertRow tryParse s).isNull = false ∧
     (tryParse (s.dropWhile (fun b => b == 32))).2 = true ∧
     (convertRow tryParse s).value = (tryParse (s.dropWhile (fun b => b == 32))).1) := by
  unfold convertRow
  split_ifs with h1 h2 h3
  · left; rfl
  · left; rfl
  · cases hp : (tryParse (s.dropWhile (fun b => b == 32))).2
    · left; simp [hp]
    · right
      exact ⟨rfl, rfl, rfl⟩
  · left; rfl

theorem getD_map_of_lt {α β : Type} (f : α → β) (l : List α) (i : Nat) (d : β) (d' : α)
    (hi : i < l.length) : (l.map f).getD i d = f (l.getD i d') := by
  rw [List.getD_eq_getElem _ _ (by simpa using hi), List.getElem_map,
    List.getD_eq_getElem _ _ hi]

/-- C9: for every input row of `spark_to_date` whose string is shorter
than 10 bytes, or whose remainder after skipping leading spaces is shorter
than 10 bytes, or whose 10-byte prefix fails `checkDateFormat`, `executeImpl`
produces a null result for that row (null flag set, stored value 0) instead
of raising an error. -/
theorem executeImpl_null_rows (tryParse : List Nat → Int × Bool)
    (rows : List (List Nat)) (rt : DataTypeModel)
    (hn : rt.isNullable = true) (hd : rt.innerIsDate32 = true)
    (i : Nat) (hi : i < rows.length)
    (hbad : (rows.getD i []).length < 10 ∨
            ((rows.getD i []).dropWhile (fun b => b == 32)).length < 10 ∨
            checkDateFormat ((rows.getD i []).dropWhile (fun b => b == 32)) = false) :
    ∃ col, executeImpl tryParse [rows] rt = Except.ok col ∧
      col.nullMap.getD i false = true ∧ col.values.getD i 1 = 0 := by
  have hrow := convertRow_null tryParse (rows.getD i []) hbad
  refine ⟨⟨(rows.map (convertRow tryParse)).map RowResult.value,
           (rows.map (convertRow tryParse)).map RowResult.isNull⟩, ?_, ?_, ?_⟩
  · unfold executeImpl
    simp [hn, hd]
  · rw [getD_map_of_lt RowResult.isNull _ _ _ (⟨1, false⟩ : RowResult) (by simpa using hi),
      getD_map_of_lt (convertRow tryParse) _ _ _ [] hi, hrow]
  · rw [getD_map_of_lt RowResult.value _ _ _ (⟨1, false⟩ : RowResult) (by simpa using hi),
      getD_map_of_lt (convertRow tryParse) _ _ _ [] hi, hrow]

/-- Witness for C9: the three-byte row `"abc"` comes back null with stored
value 0. -/
theorem executeImpl_null_rows_witness :
    ∃ col, executeImpl (fun _ => (0, false)) [[[97, 98, 99]]] ⟨true, true⟩ = Except.ok col ∧
      col.nullMap.getD 0 false = true ∧ col.values.getD 0 1 = 0 :=
  executeImpl_null_rows (fun _ => (0, false)) [[97, 98, 99]] ⟨true, true⟩ rfl rfl 0
    (by decide) (Or.inl (by decide))

/-- C10: `executeImpl` of `spark_to_date`, given exactly one
string-column argument and a nullable Date32 result type, always returns a
nullable column with exactly as many rows as the input column, where every
row is either a successfully parsed date or null; it throws before producing
any column if the argument count is not 1 or the result type is not nullable
Date32. -/
theorem executeImpl_shape (tryParse : List Nat → Int × Bool)
    (arguments : List (List (List Nat))) (rt : DataTypeModel) :
    (arguments.length ≠ 1 →
       executeImpl tryParse arguments rt = Except.error ExecError.numberOfArgumentsDoesntMatch) ∧
    (arguments.length = 1 → ¬ (rt.isNullable = true ∧ rt.innerIsDate32 = true) →
       executeImpl tryParse arguments rt = Except.error ExecError.illegalTypeOfArgument) ∧
    (∀ col, arguments = [col] → rt.isNullable = true → rt.innerIsDate32 = true →
       ∃ c, executeImpl tryParse arguments rt = Except.ok c ∧
         c.values.length = col.length ∧ c.nullMap.length = col.length ∧
         ∀ i, i < col.length →
           c.nullMap.getD i true = true ∨
           (c.nullMap.getD i true = false ∧
            (tryParse ((col.getD i []).dropWhile (fun b => b == 32))).2 = true ∧
            c.values.getD i 0 = (tryParse ((col.getD i []).dropWhile (fun b => b == 32))).1)) := by
  refine ⟨?_, ?_, ?_⟩
  · intro hlen
    unfold executeImpl
    simp [hlen]
  · intro hlen hty
    unfold executeImpl
    by_cases hb : rt.isNullable = true
    · by_cases hc : rt.innerIsDate32 = true
      · exact absurd ⟨hb, hc⟩ hty
      · rw [Bool.not_eq_true] at hc
        simp [hlen, hb, hc]
    · rw [Bool.not_eq_true] at hb
      simp [hlen, hb]
  · rintro col rfl hn hd
    refine ⟨⟨(col.map (convertRow tryParse)).map RowResult.value,
             (col.map (convertRow tryParse)).map RowResult.isNull⟩, ?_, ?_, ?_, ?_⟩
    · unfold executeImpl
      simp [hn, hd]
    · simp
    · simp
    · intro i hi
      have hcases := convertRow_cases tryParse (col.getD i [])
      rw [getD_map_of_lt RowResult.isNull _ _ _ (⟨1, false⟩ : RowResult) (by simpa using hi),
        getD_map_of_lt (convertRow tryParse) _ _ _ [] hi,
        getD_map_of_lt RowResult.value _ _ _ (⟨1, false⟩ : RowResult) (by simpa using hi),
        getD_map_of_lt (convertRow tryParse) _ _ _ [] hi]
      exact hcases

/-- Witness for C10: an empty argument list is rejected with the
argument-count error. -/
theorem executeImpl_shape_witness :
    executeImpl (fun _ => (0, true)) [] ⟨true, true⟩ =
      Except.error ExecError.numberOfArgumentsDoesntMatch :=
  (executeImpl_shape (fun _ => (0, true)) [] ⟨true, true⟩).1 (by decide)

/-- The byte string `"1900-02-29"`. -/
def d19000229 : List Nat := [49, 57, 48, 48, 45, 48, 50, 45, 50, 57]

/-- Witness for C8 at the concrete input `"1900-02-29"`: the characterization
applies, and the prefix is in fact accepted. -/
theorem checkDateFormat_characterization_witness :
    (10 ≤ d19000229.length) ∧
    (checkDateFormat d19000229 = true ↔ specDateShape d19000229) ∧
    checkDateFormat d19000229 = true :=
  ⟨by decide, checkDateFormat_characterization d19000229 (by decide), by decide⟩

/-! ### Shuffle read pipeline

The repository fragment holds only the declaration header
`cpp/core/shuffle/ShuffleReader.h` (constructor, `readStream`, `close`, the
three timing accessors and the `decompressTime_`, `ipcTime_`,
`deserializeTime_` counters initialized to 0); the pipeline implementation is
not part of the fragment.  The definitions below are therefore modelled from
the specification (its §2 overview, §4 component contracts, §6 wire contract
and §7 error taxonomy), with elapsed wall-clock time abstracted as
nonnegative per-phase cost functions. -/

/-- Modelled from the spec: the opaque `Schema` capability — immutable column
description bound at reader construction (missing from the fragment: the
Arrow schema type). -/
structure Schema where
  fields : List Nat
deriving DecidableEq, Repr

/-- Modelled from the spec: a `ColumnarBatch` — column buffers plus a
reference to the `Schema` (missing from the fragment: the batch memory
representation). -/
structure ColumnarBatch where
  schema : Schema
  numRows : Nat
  columns : List (List Int)
deriving DecidableEq, Repr

/-- Modelled from the spec (§6 wire contract): one self-delimited frame — a
schema/header frame, a data-block frame carrying compressed length, declared
uncompressed length, codec id and payload bytes, or the end-of-stream
marker. -/
inductive Frame where
  | schemaFrame (s : Schema)
  | dataBlock (compressedLen uncompressedLen codecId : Nat) (payload : List Nat)
  | endMarker
deriving DecidableEq, Repr

/-- Modelled from the spec (§7 error taxonomy). -/
inductive Err where
  | invalidOptions
  | truncatedStream
  | corruptStream
  | unsupportedCodec
  | schemaMismatch
deriving DecidableEq, Repr

/-- Modelled from the spec: `ShuffleReaderOptions` — the configured codec id
set (missing from the fragment: `Options.h`). -/
structure ShuffleReaderOptions where
  codecs : List Nat
deriving DecidableEq, Repr

/-- Modelled from the spec (§4.5): what the deserializer recovers from
uncompressed bytes — the payload's own schema, row count and columns. -/
structure DecodedPayload where
  schema : Schema
  numRows : Nat
  columns : List (List Int)
deriving DecidableEq, Repr

/-- Modelled from the spec (§9 capability interface): the opaque codec and
deserialization collaborators — `decode(codec id, bytes) -> bytes` and
`deserialize(bytes) -> decoded payload` (`none` marks a malformed payload). -/
structure Capabilities where
  decode : Nat → List Nat → List Nat
  deserialize : List Nat → Option DecodedPayload

/-- Modelled from the spec (§3 `TimingCounters`): the elapsed time each phase
contributes to one `advance()` call, abstracted as nonnegative costs. -/
structure Costs where
  ipcCost : Nat
  decompressCost : List Nat → Nat
  deserializeCost : List Nat → Nat

/-- Modelled from the spec (§4.2 pull protocol):
`Open → (Streaming)* → Exhausted | Closed | Failed`. -/
inductive IterState where
  | opened
  | exhausted
  | closed
  | failed (e : Err)
deriving DecidableEq, Repr

/-- Modelled from the spec: the `ShuffleReader` together with its bound
iterator — schema and options bound at construction, the three timing
counters, the remaining stream and the iterator state. -/
structure ReaderState where
  schema : Schema
  options : ShuffleReaderOptions
  decompressTime : Nat
  ipcTime : Nat
  deserializeTime : Nat
  stream : List Frame
  state : IterState
deriving DecidableEq, Repr

/-- Modelled from the header and the spec: construction binds the schema and
options and zero-initializes the three counters (`decompressTime_ = 0`,
`ipcTime_ = 0`, `deserializeTime_ = 0` in `ShuffleReader.h`); no stream is
bound yet. -/
def mkReader (schema : Schema) (options : ShuffleReaderOptions) : ReaderState :=
  { schema := schema, options := options, decompressTime := 0, ipcTime := 0,
    deserializeTime := 0, stream := [], state := IterState.closed }

/-- Modelled from the spec (§4.1): `readStream` binds one input stream to one
fresh iterator in the `Open` state; the counters persist for the reader's
lifetime. -/
def readStream (r : ReaderState) (s : List Frame) : ReaderState :=
  { r with stream := s, state := IterState.opened }

/-- Modelled from the spec (§4.4): decompression of a zero-length block is a
no-op success — an empty batch of the bound schema with zero rows. -/
def emptyBatch (s : Schema) : ColumnarBatch :=
  ⟨s, 0, s.fields.map (fun _ => [])⟩

/-- Outcome of one `advance()` call: a batch, end-of-stream, or an error. -/
inductive AdvanceResult where
  | batch (b : ColumnarBatch)
  | endOfStream
  | error (e : Err)
deriving DecidableEq, Repr

/-- Modelled from the spec (§4.3): the stream opens with one schema/header
frame, which the frame decoder consumes before the first data frame. -/
def stripHeader (fs : List Frame) : List Frame :=
  match fs with
  | Frame.schemaFrame _ :: rest => rest
  | other => other

/-- Modelled from the spec (§4.2-§4.5): one `advance()` call.  Terminal
states absorb: `Exhausted` and `Closed` report no more items, `Failed`
reports the stored error, and the stream is not touched.  In `Open`, one
frame is read (framing latency accumulates into `ipcTime`); the end marker
transitions to `Exhausted`; a data block is checked for truncation
(`TruncatedStream`), internal consistency (`CorruptStream`), codec membership
in the configured set (`UnsupportedCodec`), then decompressed (accumulating
`decompressTime`; a post-decompress length mismatch is `CorruptStream`),
deserialized (accumulating `deserializeTime`; a payload schema differing from
the bound schema is `SchemaMismatch`), and the batch is emitted with the
bound schema.  Every error transitions the iterator to `Failed`. -/
def advance (caps : Capabilities) (costs : Costs) (r : ReaderState) :
    AdvanceResult × ReaderState :=
  match r.state with
  | IterState.exhausted => (AdvanceResult.endOfStream, r)
  | IterState.closed => (AdvanceResult.endOfStream, r)
  | IterState.failed e => (AdvanceResult.error e, r)
  | IterState.opened =>
    let r1 := { r with ipcTime := r.ipcTime + costs.ipcCost }
    match stripHeader r.stream with
    | [] =>
      (AdvanceResult.error Err.truncatedStream,
       { r1 with stream := [], state := IterState.failed Err.truncatedStream })
    | Frame.endMarker :: rest =>
      (AdvanceResult.endOfStream, { r1 with stream := rest, state := IterState.exhausted })
    | Frame.schemaFrame _ :: rest =>
      (AdvanceResult.error Err.corruptStream,
       { r1 with stream := rest, state := IterState.failed Err.corruptStream })
    | Frame.dataBlock cl ul cid payload :: rest =>
      if payload.length < cl then
        (AdvanceResult.error Err.truncatedStream,
         { r1 with stream := rest, state := IterState.failed Err.truncatedStream })
      else if cl = 0 ∧ ul ≠ 0 then
        (AdvanceResult.error Err.corruptStream,
         { r1 with stream := rest, state := IterState.failed Err.corruptStream })
      else if cid ∉ r.options.codecs then
        (AdvanceResult.error Err.unsupportedCodec,
         { r1 with stream := rest, state := IterState.failed Err.unsupportedCodec })
      else if cl = 0 then
        (AdvanceResult.batch (emptyBatch r.schema), { r1 with stream := rest })
      else
        let bytes := caps.decode cid (payload.take cl)
        let r2 := { r1 with decompressTime := r1.decompressTime + costs.decompressCost payload }
        if bytes.length ≠ ul then
          (AdvanceResult.error Err.corruptStream,
           { r2 with stream := rest, state := IterState.failed Err.corruptStream })
        else
          match caps.deserialize bytes with
          | none =>
            (AdvanceResult.error Err.corruptStream,
             { r2 with stream := rest, state := IterState.failed Err.corruptStream })
          | some dp =>
            let r3 := { r2 with
              deserializeTime := r2.deserializeTime + costs.deserializeCost bytes }
            if dp.schema ≠ r.schema then
              (AdvanceResult.error Err.schemaMismatch,
               { r3 with stream := rest, state := IterState.failed Err.schemaMismatch })
            else
              (AdvanceResult.batch ⟨r.schema, dp.numRows, dp.columns⟩,
               { r3 with stream := rest })

/-- Modelled from the spec (§4.1, §5, §7): `close()` abandons the underlying
stream, releases held buffers and succeeds; it is the only cancellation
primitive and is safe from any iterator state.  The model's resource release
cannot fail, so the result is always `Except.ok`. -/
def close (r : ReaderState) : Except Err Unit × ReaderState :=
  (Except.ok (), { r with stream := [], state := IterState.closed })

/-- Iterate `advance` `n` times, keeping the final state. -/
def advanceN (caps : Capabilities) (costs : Costs) (r : ReaderState) : Nat → ReaderState
  | 0 => r
  | n + 1 => (advance caps costs (advanceN caps costs r n)).2

/-- Drive the iterator with the given fuel, collecting the emitted batches in
order; stops at end-of-stream or on the first error. -/
def runRead (caps : Capabilities) (costs : Costs) (r : ReaderState) :
    Nat → List ColumnarBatch × ReaderState
  | 0 => ([], r)
  | fuel + 1 =>
    match advance caps costs r with
    | (AdvanceResult.batch b, r') =>
      let p := runRead caps costs r' fuel
      (b :: p.1, p.2)
    | (AdvanceResult.endOfStream, r') => ([], r')
    | (AdvanceResult.error _, r') => ([], r')

/-! ### Pipeline theorems -/

/-- C5: once a `ResultIterator` is in a terminal state (`Exhausted`, `Closed`
or `Failed`), every subsequent `advance()` call returns no-more-items or the
stored error and never reads the underlying stream again (the whole reader
state, stream included, is returned unchanged); the iterator is not
restartable. -/
theorem advance_terminal_absorbing (caps : Capabilities) (costs : Costs) (r : ReaderState) :
    (r.state = IterState.exhausted →
       advance caps costs r = (AdvanceResult.endOfStream, r)) ∧
    (r.state = IterState.closed →
       advance caps costs r = (AdvanceResult.endOfStream, r)) ∧
    (∀ e, r.state = IterState.failed e →
       advance caps costs r = (AdvanceResult.error e, r)) := by
  refine ⟨fun h => ?_, fun h => ?_, fun e h => ?_⟩ <;>
    · unfold advance
      rw [h]

/-- Exhausted reader fixture for witnesses. -/
def rFailedW : ReaderState :=
  ⟨⟨[]⟩, ⟨[]⟩, 0, 0, 0, [], IterState.failed Err.corruptStream⟩

/-- Trivial capability fixture for witnesses. -/
def capsW : Capabilities :=
  ⟨fun _ l => l, fun _ => some ⟨⟨[7]⟩, 1, [[3]]⟩⟩

/-- Cost fixture for witnesses. -/
def costsW : Costs := ⟨1, fun _ => 2, fun _ => 3⟩

/-- Witness for C5: a failed iterator replays its stored error and keeps its
state unchanged. -/
theorem advance_terminal_absorbing_witness :
    advance capsW costsW rFailedW = (AdvanceResult.error Err.corruptStream, rFailedW) :=
  (advance_terminal_absorbing capsW costsW rFailedW).2.2 Err.corruptStream rfl

/-- C3: `close()` is idempotent — calling it twice, or calling it after the
iterator has transitioned to `Failed`, yields the same result and final state
as calling it once; it is safe in any state and never raises a new error for
an already-failed iterator. -/
theorem close_idempotent (r : ReaderState) :
    (close r).1 = Except.ok () ∧
    close ((close r).2) = close r ∧
    (∀ e, r.state = IterState.failed e → (close r).1 = Except.ok ()) :=
  ⟨rfl, rfl, fun _ _ => rfl⟩

/-- Witness for C3: closing an already-failed reader still succeeds. -/
theorem close_idempotent_witness : (close rFailedW).1 = Except.ok () :=
  (close_idempotent rFailedW).2.2 Err.corruptStream rfl

/-- C7: a stream consisting of exactly one schema/header frame followed by
the end-of-stream marker yields zero batches and no error — the first
`advance()` immediately reports end-of-stream and the iterator transitions to
`Exhausted`. -/
theorem empty_stream_immediate (caps : Capabilities) (costs : Costs)
    (schema : Schema) (opts : ShuffleReaderOptions) :
    (advance caps costs (readStream (mkReader schema opts)
        [Frame.schemaFrame schema, Frame.endMarker])).1 = AdvanceResult.endOfStream ∧
    (advance caps costs (readStream (mkReader schema opts)
        [Frame.schemaFrame schema, Frame.endMarker])).2.state = IterState.exhausted ∧
    ∀ fuel, (runRead caps costs (readStream (mkReader schema opts)
        [Frame.schemaFrame schema, Frame.endMarker]) fuel).1 = [] := by
  refine ⟨rfl, rfl, fun fuel => ?_⟩
  cases fuel
  · rfl
  · rfl

theorem advance_eq_endMarker (caps : Capabilities) (costs : Costs) (r : ReaderState)
    (rest : List Frame) (hstate : r.state = IterState.opened)
    (hstream : stripHeader r.stream = Frame.endMarker :: rest) :
    advance caps costs r =
      (AdvanceResult.endOfStream,
       { r with ipcTime := r.ipcTime + costs.ipcCost, stream := rest,
                state := IterState.exhausted }) := by
  unfold advance
  rw [hstate]
  dsimp only
  rw [hstream]

theorem advance_eq_unsupported (caps : Capabilities) (costs : Costs) (r : ReaderState)
    (cl ul cid : Nat) (payload : List Nat) (rest : List Frame)
    (hstate : r.state = IterState.opened)
    (hstream : stripHeader r.stream = Frame.dataBlock cl ul cid payload :: rest)
    (hlen : ¬ payload.length < cl)
    (hcons : ¬ (cl = 0 ∧ ul ≠ 0))
    (hcid : cid ∉ r.options.codecs) :
    advance caps costs r =
      (AdvanceResult.error Err.unsupportedCodec,
       { r with ipcTime := r.ipcTime + costs.ipcCost, stream := rest,
                state := IterState.failed Err.unsupportedCodec }) := by
  unfold advance
  rw [hstate]
  dsimp only
  rw [hstream]
  dsimp only
  rw [if_neg hlen, if_neg hcons, if_pos hcid]

theorem advance_eq_goodBlock (caps : Capabilities) (costs : Costs) (r : ReaderState)
    (cl ul cid : Nat) (payload : List Nat) (rest : List Frame) (dp : DecodedPayload)
    (hstate : r.state = IterState.opened)
    (hstream : stripHeader r.stream = Frame.dataBlock cl ul cid payload :: rest)
    (hlen : ¬ payload.length < cl)
    (hcl : cl ≠ 0)
    (hcid : cid ∈ r.options.codecs)
    (hul : (caps.decode cid (payload.take cl)).length = ul)
    (hdes : caps.deserialize (caps.decode cid (payload.take cl)) = some dp)
    (hschema : dp.schema = r.schema) :
    advance caps costs r =
      (AdvanceResult.batch ⟨r.schema, dp.numRows, dp.columns⟩,
       { r with ipcTime := r.ipcTime + costs.ipcCost,
                decompressTime := r.decompressTime + costs.decompressCost payload,
                deserializeTime := r.deserializeTime +
                  costs.deserializeCost (caps.decode cid (payload.take cl)),
                stream := rest }) := by
  unfold advance
  rw [hstate]
  dsimp only
  rw [hstream]
  dsimp only
  rw [if_neg hlen, if_neg (by simp [hcl] : ¬ (cl = 0 ∧ ul ≠ 0)),
    if_neg (by simp [hcid] : ¬ cid ∉ r.options.codecs), if_neg hcl]
  rw [if_neg (by simp [hul] : ¬ (caps.decode cid (payload.take cl)).length ≠ ul)]
  rw [hdes]
  dsimp only
  rw [if_neg (by simp [hschema] : ¬ dp.schema ≠ r.schema)]

theorem advance_eq_mismatch (caps : Capabilities) (costs : Costs) (r : ReaderState)
    (cl ul cid : Nat) (payload : List Nat) (rest : List Frame) (dp : DecodedPayload)
    (hstate : r.state = IterState.opened)
    (hstream : stripHeader r.stream = Frame.dataBlock cl ul cid payload :: rest)
    (hlen : ¬ payload.length < cl)
    (hcl : cl ≠ 0)
    (hcid : cid ∈ r.options.codecs)
    (hul : (caps.decode cid (payload.take cl)).length = ul)
    (hdes : caps.deserialize (caps.decode cid (payload.take cl)) = some dp)
    (hschema : dp.schema ≠ r.schema) :
    advance caps costs r =
      (AdvanceResult.error Err.schemaMismatch,
       { r with ipcTime := r.ipcTime + costs.ipcCost,
                decompressTime := r.decompressTime + costs.decompressCost payload,
                deserializeTime := r.deserializeTime +
                  costs.deserializeCost (caps.decode cid (payload.take cl)),
                stream := rest,
                state := IterState.failed Err.schemaMismatch }) := by
  unfold advance
  rw [hstate]
  dsimp only
  rw [hstream]
  dsimp only
  rw [if_neg hlen, if_neg (by simp [hcl] : ¬ (cl = 0 ∧ ul ≠ 0)),
    if_neg (by simp [hcid] : ¬ cid ∉ r.options.codecs), if_neg hcl]
  rw [if_neg (by simp [hul] : ¬ (caps.decode cid (payload.take cl)).length ≠ ul)]
  rw [hdes]
  dsimp only
  rw [if_pos hschema]

theorem advance_exhausted_eq (caps : Capabilities) (costs : Costs) (r : ReaderState)
    (h : r.state = IterState.exhausted) :
    advance caps costs r = (AdvanceResult.endOfStream, r) := by
  unfold advance; rw [h]

theorem advance_closed_eq (caps : Capabilities) (costs : Costs) (r : ReaderState)
    (h : r.state = IterState.closed) :
    advance caps costs r = (AdvanceResult.endOfStream, r) := by
  unfold advance; rw [h]

theorem advance_failed_eq (caps : Capabilities) (costs : Costs) (r : ReaderState)
    (e : Err) (h : r.state = IterState.failed e) :
    advance caps costs r = (AdvanceResult.error e, r) := by
  unfold advance; rw [h]

/-- C6: a data-block frame that passes the frame-decoder checks but declares
a codec id outside the configured set makes `advance()` fail with
`UnsupportedCodec`, transitions the iterator to `Failed`, and no batch is
returned for that frame or any later frame of that iterator. -/
theorem unsupported_codec_fails (caps : Capabilities) (costs : Costs) (r : ReaderState)
    (cl ul cid : Nat) (payload : List Nat) (rest : List Frame)
    (hstate : r.state = IterState.opened)
    (hstream : stripHeader r.stream = Frame.dataBlock cl ul cid payload :: rest)
    (hlen : ¬ payload.length < cl)
    (hcons : ¬ (cl = 0 ∧ ul ≠ 0))
    (hcid : cid ∉ r.options.codecs) :
    (advance caps costs r).1 = AdvanceResult.error Err.unsupportedCodec ∧
    (advance caps costs r).2.state = IterState.failed Err.unsupportedCodec ∧
    (∀ fuel, (runRead caps costs r fuel).1 = []) := by
  have hadv := advance_eq_unsupported caps costs r cl ul cid payload rest hstate hstream
    hlen hcons hcid
  refine ⟨by rw [hadv], by rw [hadv], fun fuel => ?_⟩
  cases fuel with
  | zero => rfl
  | succ n =>
    unfold runRead
    rw [hadv]

/-- Reader fixture holding one block with the unconfigured codec id 9. -/
def rBadCodecW : ReaderState :=
  ⟨⟨[]⟩, ⟨[]⟩, 0, 0, 0, [Frame.dataBlock 1 1 9 [5]], IterState.opened⟩

/-- Witness for C6 on a concrete one-block stream. -/
theorem unsupported_codec_fails_witness :
    (advance capsW costsW rBadCodecW).1 = AdvanceResult.error Err.unsupportedCodec ∧
    (advance capsW costsW rBadCodecW).2.state = IterState.failed Err.unsupportedCodec ∧
    (∀ fuel, (runRead capsW costsW rBadCodecW fuel).1 = []) :=
  unsupported_codec_fails capsW costsW rBadCodecW 1 1 9 [5] [] rfl rfl
    (by decide) (by decide) (by decide)

theorem advance_timers_mono (caps : Capabilities) (costs : Costs) (r : ReaderState) :
    r.decompressTime ≤ (advance caps costs r).2.decompressTime ∧
    r.ipcTime ≤ (advance caps costs r).2.ipcTime ∧
    r.deserializeTime ≤ (advance caps costs r).2.deserializeTime := by
  unfold advance
  cases hst : r.state with
  | exhausted => exact ⟨le_refl _, le_refl _, le_refl _⟩
  | closed => exact ⟨le_refl _, le_refl _, le_refl _⟩
  | failed e => exact ⟨le_refl _, le_refl _, le_refl _⟩
  | opened =>
    cases hfr : stripHeader r.stream with
    | nil => exact ⟨le_refl _, Nat.le_add_right _ _, le_refl _⟩
    | cons f rest =>
      cases f with
      | schemaFrame s => exact ⟨le_refl _, Nat.le_add_right _ _, le_refl _⟩
      | endMarker => exact ⟨le_refl _, Nat.le_add_right _ _, le_refl _⟩
      | dataBlock cl ul cid payload =>
        dsimp only
        split_ifs <;>
          first
          | exact ⟨le_refl _, le_refl _, le_refl _⟩
          | exact ⟨le_refl _, Nat.le_add_right _ _, le_refl _⟩
          | exact ⟨Nat.le_add_right _ _, Nat.le_add_right _ _, le_refl _⟩
          | exact ⟨Nat.le_add_right _ _, Nat.le_add_right _ _, Nat.le_add_right _ _⟩
          | (cases hdes : caps.deserialize (caps.decode cid (payload.take cl)) with
             | none => exact ⟨Nat.le_add_right _ _, Nat.le_add_right _ _, le_refl _⟩
             | some dp =>
               dsimp only
               split_ifs <;>
                 first
                 | exact ⟨Nat.le_add_right _ _, Nat.le_add_right _ _, le_refl _⟩
                 | exact ⟨Nat.le_add_right _ _, Nat.le_add_right _ _,
                     Nat.le_add_right _ _⟩)

/-- C1: the three timing accessors return zero before any read has been
performed (immediately after construction and stream binding), and their
values are non-decreasing across every sequence of `advance()` calls. -/
theorem timers_zero_and_monotone (caps : Capabilities) (costs : Costs)
    (schema : Schema) (opts : ShuffleReaderOptions) (instream : List Frame) :
    ((readStream (mkReader schema opts) instream).decompressTime = 0 ∧
     (readStream (mkReader schema opts) instream).ipcTime = 0 ∧
     (readStream (mkReader schema opts) instream).deserializeTime = 0) ∧
    (∀ (r : ReaderState) (n m : Nat), n ≤ m →
       (advanceN caps costs r n).decompressTime ≤ (advanceN caps costs r m).decompressTime ∧
       (advanceN caps costs r n).ipcTime ≤ (advanceN caps costs r m).ipcTime ∧
       (advanceN caps costs r n).deserializeTime ≤
         (advanceN caps costs r m).deserializeTime) := by
  refine ⟨⟨rfl, rfl, rfl⟩, ?_⟩
  intro r n m hnm
  induction m with
  | zero =>
    have h0 : n = 0 := Nat.le_zero.mp hnm
    subst h0
    exact ⟨le_refl _, le_refl _, le_refl _⟩
  | succ m ih =>
    rcases Nat.eq_or_lt_of_le hnm with h | hlt
    · subst h
      exact ⟨le_refl _, le_refl _, le_refl _⟩
    · have hv := ih (Nat.lt_succ_iff.mp hlt)
      have step := advance_timers_mono caps costs (advanceN caps costs r m)
      exact ⟨le_trans hv.1 step.1, le_trans hv.2.1 step.2.1, le_trans hv.2.2 step.2.2⟩

/-- Witness for C1 at a concrete reader and one advance step. -/
theorem timers_zero_and_monotone_witness :
    (advanceN capsW costsW rBadCodecW 0).decompressTime ≤
      (advanceN capsW costsW rBadCodecW 1).decompressTime ∧
    (advanceN capsW costsW rBadCodecW 0).ipcTime ≤
      (advanceN capsW costsW rBadCodecW 1).ipcTime ∧
    (advanceN capsW costsW rBadCodecW 0).deserializeTime ≤
      (advanceN capsW costsW rBadCodecW 1).deserializeTime :=
  (timers_zero_and_monotone capsW costsW ⟨[]⟩ ⟨[]⟩ []).2 rBadCodecW 0 1 (by decide)

theorem advance_schema_master (caps : Capabilities) (costs : Costs) (r : ReaderState) :
    (advance caps costs r).2.schema = r.schema ∧
    ∀ b, (advance caps costs r).1 = AdvanceResult.batch b → b.schema = r.schema := by
  unfold advance
  cases hst : r.state with
  | exhausted => exact ⟨rfl, fun b hb => nomatch hb⟩
  | closed => exact ⟨rfl, fun b hb => nomatch hb⟩
  | failed e => exact ⟨rfl, fun b hb => nomatch hb⟩
  | opened =>
    cases hfr : stripHeader r.stream with
    | nil => exact ⟨rfl, fun b hb => nomatch hb⟩
    | cons f rest =>
      cases f with
      | schemaFrame s => exact ⟨rfl, fun b hb => nomatch hb⟩
      | endMarker => exact ⟨rfl, fun b hb => nomatch hb⟩
      | dataBlock cl ul cid payload =>
        dsimp only
        split_ifs
        · exact ⟨rfl, fun b hb => hb.elim⟩
        · exact ⟨rfl, fun b hb => hb.elim⟩
        · refine ⟨rfl, fun b hb => ?_⟩
          injection hb with hb2
          subst hb2
          rfl
        · exact ⟨rfl, fun b hb => hb.elim⟩
        · cases hdes : caps.deserialize (caps.decode cid (payload.take cl)) with
          | none => exact ⟨rfl, fun b hb => nomatch hb⟩
          | some dp =>
            dsimp only
            split_ifs with hms
            · exact ⟨rfl, fun b hb => nomatch hb⟩
            · refine ⟨rfl, fun b hb => ?_⟩
              injection hb with hb2
              subst hb2
              rfl
        · exact ⟨rfl, fun b hb => hb.elim⟩

theorem runRead_schema (caps : Capabilities) (costs : Costs) :
    ∀ (fuel : Nat) (r : ReaderState), ∀ b ∈ (runRead caps costs r fuel).1,
      b.schema = r.schema := by
  intro fuel
  induction fuel with
  | zero =>
    intro r b hb
    simp [runRead] at hb
  | succ n ih =>
    intro r b hb
    unfold runRead at hb
    rcases hadv : advance caps costs r with ⟨res, r2⟩
    rw [hadv] at hb
    cases res with
    | batch bb =>
      dsimp only at hb
      rcases List.mem_cons.mp hb with rfl | hb2
      · exact (advance_schema_master caps costs r).2 b (by rw [hadv])
      · have hr2 : r2.schema = r.schema := by
          have hp := (advance_schema_master caps costs r).1
          rw [hadv] at hp
          exact hp
        rw [ih r2 b hb2, hr2]
    | endOfStream => simp at hb
    | error e => simp at hb

/-- C2: every `ColumnarBatch` emitted through any number of `advance()` calls
holds exactly the schema bound at the reader's construction; the bound schema
is never replaced mid-stream; and a schema mismatch in the decoded payload is
a hard error (`SchemaMismatch`, iterator `Failed`). -/
theorem schema_stable (caps : Capabilities) (costs : Costs) (r : ReaderState) :
    ((advance caps costs r).2.schema = r.schema) ∧
    (∀ b, (advance caps costs r).1 = AdvanceResult.batch b → b.schema = r.schema) ∧
    (∀ fuel, ∀ b ∈ (runRead caps costs r fuel).1, b.schema = r.schema) ∧
    (∀ (cl ul cid : Nat) (payload : List Nat) (rest : List Frame) (dp : DecodedPayload),
       r.state = IterState.opened →
       stripHeader r.stream = Frame.dataBlock cl ul cid payload :: rest →
       ¬ payload.length < cl → cl ≠ 0 → cid ∈ r.options.codecs →
       (caps.decode cid (payload.take cl)).length = ul →
       caps.deserialize (caps.decode cid (payload.take cl)) = some dp →
       dp.schema ≠ r.schema →
       (advance caps costs r).1 = AdvanceResult.error Err.schemaMismatch ∧
       (advance caps costs r).2.state = IterState.failed Err.schemaMismatch) := by
  refine ⟨(advance_schema_master caps costs r).1, (advance_schema_master caps costs r).2,
    fun fuel b hb => runRead_schema caps costs fuel r b hb, ?_⟩
  intro cl ul cid payload rest dp hstate hstream hlen hcl hcid hul hdes hneq
  have hadv := advance_eq_mismatch caps costs r cl ul cid payload rest dp hstate hstream
    hlen hcl hcid hul hdes hneq
  exact ⟨by rw [hadv], by rw [hadv]⟩

/-- Reader fixture over schema `⟨[7]⟩` holding one well-formed block with the
configured codec id 5. -/
def rGoodW : ReaderState :=
  ⟨⟨[7]⟩, ⟨[5]⟩, 0, 0, 0, [Frame.dataBlock 1 1 5 [42]], IterState.opened⟩

/-- Witness for C2: the concrete batch emitted from `rGoodW` carries the
bound schema. -/
theorem schema_stable_witness :
    (⟨⟨[7]⟩, 1, [[3]]⟩ : ColumnarBatch).schema = rGoodW.schema :=
  (schema_stable capsW costsW rGoodW).2.1 ⟨⟨[7]⟩, 1, [[3]]⟩ rfl

/-- Modelled from the spec (§6, write side): the frame the write stage emits
for one batch — the compressed payload with its declared compressed length,
declared uncompressed length and codec id. -/
def writeBlock (compressFn : List Nat → List Nat) (serializeFn : ColumnarBatch → List Nat)
    (cid : Nat) (b : ColumnarBatch) : Frame :=
  Frame.dataBlock (compressFn (serializeFn b)).length (serializeFn b).length cid
    (compressFn (serializeFn b))

/-- Modelled from the spec (§6): the full wire stream — one schema/header
frame, the data-block frames in batch order, one end-of-stream marker. -/
def writeStream (compressFn : List Nat → List Nat) (serializeFn : ColumnarBatch → List Nat)
    (cid : Nat) (schema : Schema) (batches : List ColumnarBatch) : List Frame :=
  Frame.schemaFrame schema ::
    (batches.map (writeBlock compressFn serializeFn cid) ++ [Frame.endMarker])

theorem stripHeader_blocks (compressFn : List Nat → List Nat)
    (serializeFn : ColumnarBatch → List Nat) (cid : Nat) (bs : List ColumnarBatch) :
    stripHeader (bs.map (writeBlock compressFn serializeFn cid) ++ [Frame.endMarker]) =
      bs.map (writeBlock compressFn serializeFn cid) ++ [Frame.endMarker] := by
  cases bs with
  | nil => rfl
  | cons b bs => rfl

theorem runRead_writeBlocks (caps : Capabilities) (costs : Costs)
    (compressFn : List Nat → List Nat) (serializeFn : ColumnarBatch → List Nat)
    (cid : Nat) (schema : Schema) :
    ∀ (bs : List ColumnarBatch) (r : ReaderState),
      (∀ b ∈ bs, caps.decode cid (compressFn (serializeFn b)) = serializeFn b) →
      (∀ b ∈ bs, caps.deserialize (serializeFn b) = some ⟨b.schema, b.numRows, b.columns⟩) →
      (∀ b ∈ bs, b.schema = schema) →
      (∀ b ∈ bs, compressFn (serializeFn b) ≠ []) →
      cid ∈ r.options.codecs →
      r.state = IterState.opened → r.schema = schema →
      stripHeader r.stream =
        bs.map (writeBlock compressFn serializeFn cid) ++ [Frame.endMarker] →
      (runRead caps costs r (bs.length + 1)).1 = bs := by
  intro bs
  induction bs with
  | nil =>
    intro r _ _ _ _ hcid hstate hschema hstream
    have hadv := advance_eq_endMarker caps costs r [] hstate (by simpa using hstream)
    unfold runRead
    rw [hadv]
  | cons b bs ih =>
    intro r hinv hdes hsch hne hcid hstate hschema hstream
    have hb_inv := hinv b (List.mem_cons_self b bs)
    have hb_des := hdes b (List.mem_cons_self b bs)
    have hb_sch := hsch b (List.mem_cons_self b bs)
    have hb_ne := hne b (List.mem_cons_self b bs)
    have hstream2 : stripHeader r.stream =
        Frame.dataBlock (compressFn (serializeFn b)).length (serializeFn b).length cid
          (compressFn (serializeFn b)) ::
          (bs.map (writeBlock compressFn serializeFn cid) ++ [Frame.endMarker]) := by
      simpa [writeBlock] using hstream
    have hdecode : caps.decode cid
        ((compressFn (serializeFn b)).take (compressFn (serializeFn b)).length) =
        serializeFn b := by
      rw [List.take_length]
      exact hb_inv
    have hadv := advance_eq_goodBlock caps costs r (compressFn (serializeFn b)).length
      (serializeFn b).length cid (compressFn (serializeFn b))
      (bs.map (writeBlock compressFn serializeFn cid) ++ [Frame.endMarker])
      ⟨b.schema, b.numRows, b.columns⟩
      hstate hstream2 (by omega)
      (fun hz => hb_ne (List.length_eq_zero.mp hz))
      hcid
      (by rw [hdecode])
      (by rw [hdecode]; exact hb_des)
      (by show b.schema = r.schema; rw [hb_sch, hschema])
    have hbatch : (⟨r.schema, b.numRows, b.columns⟩ : ColumnarBatch) = b := by
      have : r.schema = b.schema := by rw [hb_sch, hschema]
      rw [this]
    show (runRead caps costs r ((b :: bs).length + 1)).1 = b :: bs
    unfold runRead
    rw [hadv]
    dsimp only
    rw [hbatch]
    simp only [List.length_cons]
    congr 1
    apply ih
    · exact fun x hx => hinv x (List.mem_cons_of_mem b hx)
    · exact fun x hx => hdes x (List.mem_cons_of_mem b hx)
    · exact fun x hx => hsch x (List.mem_cons_of_mem b hx)
    · exact fun x hx => hne x (List.mem_cons_of_mem b hx)
    · exact hcid
    · exact hstate
    · exact hschema
    · exact stripHeader_blocks compressFn serializeFn cid bs

/-- C4: for every schema and every sequence of batches encoded by the
write-side framing protocol (with inverse codec and serializer
capabilities), reading the stream back reproduces the same batches — same
column values, same row counts, in the exact order the blocks appear on the
stream. -/
theorem round_trip (caps : Capabilities) (costs : Costs)
    (compressFn : List Nat → List Nat) (serializeFn : ColumnarBatch → List Nat)
    (cid : Nat) (schema : Schema) (opts : ShuffleReaderOptions)
    (batches : List ColumnarBatch)
    (hcid : cid ∈ opts.codecs)
    (hinv : ∀ b ∈ batches, caps.decode cid (compressFn (serializeFn b)) = serializeFn b)
    (hdes : ∀ b ∈ batches,
      caps.deserialize (serializeFn b) = some ⟨b.schema, b.numRows, b.columns⟩)
    (hsch : ∀ b ∈ batches, b.schema = schema)
    (hne : ∀ b ∈ batches, compressFn (serializeFn b) ≠ []) :
    (runRead caps costs
      (readStream (mkReader schema opts)
        (writeStream compressFn serializeFn cid schema batches))
      (batches.length + 1)).1 = batches :=
  runRead_writeBlocks caps costs compressFn serializeFn cid schema batches _
    hinv hdes hsch hne hcid rfl rfl rfl

/-- Concrete batch fixture for the round-trip witness. -/
def batchW : ColumnarBatch := ⟨⟨[7]⟩, 1, [[3]]⟩

/-- Witness for C4 on a one-batch stream with identity compression and a
constant serializer. -/
theorem round_trip_witness :
    (runRead capsW costsW
      (readStream (mkReader ⟨[7]⟩ ⟨[5]⟩)
        (writeStream (fun l => l) (fun _ => [1]) 5 ⟨[7]⟩ [batchW]))
      2).1 = [batchW] :=
  round_trip capsW costsW (fun l => l) (fun _ => [1]) 5 ⟨[7]⟩ ⟨[5]⟩ [batchW]
    (by decide)
    (fun _ _ => rfl)
    (fun b hb => by
      have h := List.mem_singleton.mp hb
      subst h
      rfl)
    (fun b hb => by
      have h := List.mem_singleton.mp hb
      subst h
      rfl)
    (fun b hb => by simp)

end Gluten
